import Mathlib

/-!
Shallow embedding of the `transcribe-yt` batch transcription pipeline
(`index.ts`, second revision, with the OpenAI / AssemblyAI backend switch)
together with the parts shared by the earlier revisions.

JavaScript strings are modelled as `List Char`; the filesystem is an
association list from paths to contents; external collaborators
(`ytdl.getInfo`, the download stream, `ffmpeg` segmentation, the two
transcription APIs) are inputs supplied through an `Env` record; observable
side effects are recorded in an explicit event trace.
-/

/-- JavaScript strings, modelled as lists of characters. -/
abbrev JSStr := List Char

/-- Coerce a Lean string literal into the model's string type. -/
def str (s : String) : JSStr := s.data

/-- `path.join(a, b)` for the simple path fragments the program builds. -/
def pjoin (a b : JSStr) : JSStr := a ++ '/' :: b

/-- The script's `__dirname`, fixed to an abstract root. -/
def dirnameJS : JSStr := str "/app"

/-- `TRANSCRIPTS_DIR = path.join(__dirname, "transcripts")`. -/
def TRANSCRIPTS_DIR : JSStr := pjoin dirnameJS (str "transcripts")

/-- `AUDIO_DIR = path.join(__dirname, "audio")`. -/
def AUDIO_DIR : JSStr := pjoin dirnameJS (str "audio")

/-- `CHUNKS_DIR = path.join(__dirname, "chunks")`. -/
def CHUNKS_DIR : JSStr := pjoin dirnameJS (str "chunks")

/-- A character kept by `replace(/[^a-z0-9 \-_]/gi, "")`. -/
def keepSanitized (c : Char) : Bool :=
  c.isAlpha || c.isDigit || c == ' ' || c == '-' || c == '_'

/-- `s.replace(/[^a-z0-9 \-_]/gi, "")`: drop every character outside the safe set. -/
def sanitize (s : JSStr) : JSStr := s.filter keepSanitized

/-- JavaScript `String.prototype.trim` whitespace class (the code points relevant here). -/
def isWS (c : Char) : Bool :=
  c == ' ' || c == '\t' || c == '\n' || c == '\r' || c == '\x0b' || c == '\x0c' ||
  c == '\u00A0' || c == '\u2028' || c == '\u2029' || c == '\uFEFF'

/-- JavaScript `s.trim()`: strip leading and trailing whitespace. -/
def jsTrim (s : JSStr) : JSStr :=
  ((s.dropWhile isWS).reverse.dropWhile isWS).reverse

/-- First maximal digit run of a string, i.e. `s.match(/\d+/)?.[0]`. -/
def firstDigitRun : JSStr → Option JSStr
  | [] => none
  | c :: cs =>
    if c.isDigit then some (c :: cs.takeWhile Char.isDigit)
    else firstDigitRun cs

/-- Decimal value of a digit run (what `parseInt` returns on it). -/
def digitsToNat (ds : JSStr) : Nat :=
  ds.foldl (fun n c => n * 10 + (c.toNat - '0'.toNat)) 0

/-- `parseInt(s.match(/\d+/)?.[0] || "0")`: the first integer literal found, else 0. -/
def firstIntLit (s : JSStr) : Nat :=
  match firstDigitRun s with
  | some ds => digitsToNat ds
  | none => 0

/-- Final path component (used to speak about the number embedded in a filename). -/
def basename (p : JSStr) : JSStr :=
  (p.reverse.takeWhile (fun c => !(c == '/'))).reverse

/-- `file.startsWith("chunk-") && file.endsWith(".mp3")`. -/
def matchesChunkPattern (f : JSStr) : Bool :=
  (str "chunk-").isPrefixOf f && (str ".mp3").isSuffixOf f

/-- `Math.ceil(a / b)` on the non-negative integers the program divides. -/
def ceilDiv (a b : Nat) : Nat := (a + b - 1) / b

/-- Insert into an ascending-by-key list, after all entries with an equal key
(the insertion step of a stable ascending sort). -/
def insAsc (key : α → Nat) (x : α) : List α → List α
  | [] => [x]
  | y :: ys => if key y ≤ key x then y :: insAsc key x ys else x :: y :: ys

/-- `Array.prototype.sort` with comparator `key a - key b`: a stable ascending
sort by the numeric key, modelled as left-to-right stable insertion. -/
def stableSortBy (key : α → Nat) (l : List α) : List α :=
  l.foldl (fun acc x => insAsc key x acc) []

/-- Whether a list is ascending under the given numeric key. -/
def sortedByKey (key : α → Nat) : List α → Bool
  | [] => true
  | [_] => true
  | a :: b :: t => key a ≤ key b && sortedByKey key (b :: t)

/-- The filesystem: an association list from path to file content
(later writes shadow earlier ones). -/
abbrev FS := List (JSStr × JSStr)

/-- Look up a file's content. -/
def lookupFS : FS → JSStr → Option JSStr
  | [], _ => none
  | (p, c) :: rest, q => if p = q then some c else lookupFS rest q

/-- `fs.pathExists`. -/
def pathExists (fs : FS) (p : JSStr) : Bool := (lookupFS fs p).isSome

/-- `fs.writeFile` / stream creation: record the file, shadowing any old content. -/
def writeFS (fs : FS) (p c : JSStr) : FS := (p, c) :: fs

/-- `fs.remove(dir)`: drop every file underneath the directory. -/
def removeDirFS (fs : FS) (dir : JSStr) : FS :=
  fs.filter (fun e => !((dir ++ ['/']).isPrefixOf e.1))

/-- Observable side effects of one pipeline, in program order. -/
inductive Event where
  /-- `ytdl.getInfo(videoUrl)` — a network metadata fetch. -/
  | getInfo (url : JSStr)
  /-- the audio download / transcoding stream for a video. -/
  | download (url : JSStr)
  /-- one `ffmpeg` segmentation run over an audio file. -/
  | ffmpegSplit (p : JSStr)
  /-- one transcription API call on a file. -/
  | apiTranscribe (p : JSStr)
  /-- a file write at a path. -/
  | fileWrite (p : JSStr)
  /-- `fs.remove` of a chunk directory. -/
  | dirRemove (p : JSStr)
  /-- the catch-all `console.error` of a failed pipeline. -/
  | logError
deriving DecidableEq

/-- Events that perform network work (metadata resolution and the download stream). -/
def isNetworkEv : Event → Bool
  | .getInfo _ => true
  | .download _ => true
  | _ => false

/-- Events that run the `ffmpeg` segmenter. -/
def isSplitEv : Event → Bool
  | .ffmpegSplit _ => true
  | _ => false

/-- Events that call a transcription API. -/
def isApiEv : Event → Bool
  | .apiTranscribe _ => true
  | _ => false

/-- An error value thrown by an external collaborator (its message). -/
abbrev JSError := JSStr

/-- What `ytdl.getInfo` resolves: raw title, raw author name, video id. -/
structure VideoInfo where
  title : JSStr
  author : JSStr
  videoId : JSStr
deriving DecidableEq

/-- The external collaborators, per the spec's black-box boundary. -/
structure Env where
  /-- `ytdl.getInfo`: metadata resolution, may fail. -/
  info : JSStr → Except JSError VideoInfo
  /-- the download + transcode stream: audio bytes for a url, may fail. -/
  audioData : JSStr → Except JSError JSStr
  /-- `fs.stat(filePath).size`. -/
  sizeOf : JSStr → Nat
  /-- the filenames `fs.readdir` finds in the chunk directory after the
  `ffmpeg` segmentation of a source file, in readdir (i.e. unspecified) order. -/
  segmentFiles : JSStr → List JSStr
  /-- the OpenAI Whisper call on a file, per attempt number: `some text` or a thrown error. -/
  whisper : JSStr → Nat → Option JSStr
  /-- the AssemblyAI call on a file: `ok (text?)` (the text may be null) or a thrown error. -/
  assembly : JSStr → Except JSError (Option JSStr)

/-- The configured `transcriptionService`. -/
inductive Service where
  | openai
  | assemblyai
deriving DecidableEq

/-- What `downloadAudio` resolves with. -/
structure DownloadResult where
  audioPath : JSStr
  videoTitle : JSStr
  videoAuthor : JSStr
deriving DecidableEq

/-- The canonical audio path `AUDIO_DIR/{title} - {author}.mp3`. -/
def audioPathFor (videoTitle videoAuthor : JSStr) : JSStr :=
  pjoin AUDIO_DIR (videoTitle ++ str " - " ++ videoAuthor ++ str ".mp3")

/-- The canonical transcript path `TRANSCRIPTS_DIR/{title} - {author}.txt`. -/
def transcriptPathFor (videoTitle videoAuthor : JSStr) : JSStr :=
  pjoin TRANSCRIPTS_DIR (videoTitle ++ str " - " ++ videoAuthor ++ str ".txt")

/-- The job-scoped chunk directory `CHUNKS_DIR/{title}-{id}`. -/
def chunkDirFor (videoTitle videoId : JSStr) : JSStr :=
  pjoin CHUNKS_DIR (videoTitle ++ str "-" ++ videoId)

/-- `downloadAudio(videoUrl)`: resolve metadata, reuse the canonical audio file
when present, otherwise stream the download into it. Errors carry the
filesystem and trace at the point of failure. -/
def downloadAudio (env : Env) (fs : FS) (videoUrl : JSStr) :
    Except (JSError × FS × List Event) (FS × List Event × DownloadResult) :=
  match env.info videoUrl with
  | .error e => .error (e, fs, [.getInfo videoUrl])
  | .ok info =>
    let videoTitle := sanitize info.title
    let videoAuthor := sanitize info.author
    let output := audioPathFor videoTitle videoAuthor
    if pathExists fs output then
      .ok (fs, [.getInfo videoUrl], ⟨output, videoTitle, videoAuthor⟩)
    else
      match env.audioData videoUrl with
      | .error e => .error (e, fs, [.getInfo videoUrl, .download videoUrl])
      | .ok content =>
        .ok (writeFS fs output content,
             [.getInfo videoUrl, .download videoUrl, .fileWrite output],
             ⟨output, videoTitle, videoAuthor⟩)

/-- The chunk paths the segmentation run leaves behind, filtered to the
`chunk-*.mp3` pattern and joined to the chunk directory — the list
`splitAudio` sorts (filter, then map, then sort, as in the source). -/
def producedChunkPaths (env : Env) (filePath videoTitle videoId : JSStr) : List JSStr :=
  ((env.segmentFiles filePath).filter matchesChunkPattern).map
    (fun file => pjoin (chunkDirFor videoTitle videoId) file)

/-- `splitAudio(filePath, videoTitle, videoId, chunkSizeMB = 25)`. -/
def splitAudio (env : Env) (fs : FS) (filePath videoTitle videoId : JSStr)
    (chunkSizeMB : Nat) :
    Except (JSError × FS × List Event) (FS × List Event × List JSStr) :=
  let fileSize := env.sizeOf filePath
  let chunkSize := chunkSizeMB * 1024 * 1024
  let numberOfChunks := ceilDiv fileSize chunkSize
  if numberOfChunks ≤ 1 then
    .ok (fs, [], [filePath])
  else
    let chunkFiles :=
      stableSortBy firstIntLit (producedChunkPaths env filePath videoTitle videoId)
    if chunkFiles = [] then
      .error (str "No chunks were created", fs, [.ffmpegSplit filePath])
    else
      .ok (chunkFiles.foldl (fun a p => writeFS a p (str "chunkdata")) fs,
           [.ffmpegSplit filePath], chunkFiles)

/-- The chunk list of a successful `splitAudio` run. -/
def splitResultChunks (r : Except (JSError × FS × List Event) (FS × List Event × List JSStr)) :
    Option (List JSStr) :=
  match r with
  | .ok (_, _, chunks) => some chunks
  | .error _ => none

/-- What one `transcribeWithOpenAI` call does: the text it resolves with, the
number of backend attempts it made, the waits it performed between attempts,
and whether the trailing `return ""` placed after the loop was reached. -/
structure RetryResult where
  text : JSStr
  calls : Nat
  delays : List Nat
  afterLoop : Bool
deriving DecidableEq

/-- The retry loop of `transcribeWithOpenAI`, by remaining attempts: on success
return the response text; on the final failed attempt return the empty string;
otherwise wait `retryDelay` and try again. The fuel-exhausted base case is the
trailing `return ""` after the loop. -/
def openaiAttemptLoop (backend : Nat → Option JSStr) (retryDelay : Nat) :
    Nat → Nat → RetryResult
  | _, 0 => ⟨[], 0, [], true⟩
  | attempt, remaining + 1 =>
    match backend attempt with
    | some text => ⟨text, 1, [], false⟩
    | none =>
      if remaining = 0 then ⟨[], 1, [], false⟩
      else
        let r := openaiAttemptLoop backend retryDelay (attempt + 1) remaining
        ⟨r.text, r.calls + 1, retryDelay :: r.delays, r.afterLoop⟩

/-- `transcribeWithOpenAI(filePath, maxRetries = 3, retryDelay = 5000)`:
the bounded retry loop starting at attempt 1. Every attempt's exception is
caught inside the loop, so the function always resolves with a string. -/
def transcribeWithOpenAI (backend : Nat → Option JSStr) (maxRetries retryDelay : Nat) :
    RetryResult :=
  openaiAttemptLoop backend retryDelay 1 maxRetries

/-- `transcribeWithAssemblyAI(filePath)`: a single call; a null text or a
thrown error both yield the empty string; the error is caught, not re-raised.
Returns the text and the number of backend calls made. -/
def transcribeWithAssemblyAI (result : Except JSError (Option JSStr)) : JSStr × Nat :=
  match result with
  | .ok t => (t.getD [], 1)
  | .error _ => ([], 1)

/-- `transcribeAudio(filePath)`: dispatch on the configured service
(text and number of backend calls). -/
def transcribeAudio (env : Env) (svc : Service) (filePath : JSStr) : JSStr × Nat :=
  match svc with
  | .openai =>
    let r := transcribeWithOpenAI (env.whisper filePath) 3 5000
    (r.text, r.calls)
  | .assemblyai => transcribeWithAssemblyAI (env.assembly filePath)

/-- One step of the assembly loop:
`if (transcript) fullTranscript += transcript + " "`. -/
def assembleStep (acc t : JSStr) : JSStr :=
  if t = [] then acc else acc ++ t ++ [' ']

/-- The assembly loop over the per-chunk texts, in chunk order. -/
def buildFullTranscript (ts : List JSStr) : JSStr :=
  ts.foldl assembleStep []

/-- The single-space join of a list of strings — the spec's wording of the
assembled transcript ("the single-space join of only the non-empty texts"). -/
def sepJoin : List JSStr → JSStr
  | [] => []
  | [t] => t
  | t :: ts => t ++ ' ' :: sepJoin ts

/-- The non-empty texts, in order (JavaScript truthiness: `""` is falsy). -/
def nonEmptyTexts (ts : List JSStr) : List JSStr :=
  ts.filter (fun t => !t.isEmpty)

/-- The per-chunk texts the OpenAI branch of `processVideo` obtains,
in chunk order. -/
def openaiChunkTexts (env : Env) (chunks : List JSStr) : List JSStr :=
  chunks.map (fun c => (transcribeAudio env .openai c).1)

/-- The transcription API calls the OpenAI branch performs, in order. -/
def openaiChunkEvents (env : Env) (chunks : List JSStr) : List Event :=
  chunks.flatMap (fun c => List.replicate (transcribeAudio env .openai c).2 (.apiTranscribe c))

/-- `processVideo(videoUrl)` (revision with the backend switch): resolve,
skip when the transcript exists, download, segment and transcribe per chunk
(OpenAI) or transcribe the whole artifact once (AssemblyAI), write the trimmed
transcript, clean up the chunk directory. The enclosing `try/catch` makes the
function total: a stage error is logged and the pipeline ends with the
filesystem as it stood. -/
def processVideo (env : Env) (svc : Service) (fs : FS) (videoUrl : JSStr) :
    FS × List Event :=
  match env.info videoUrl with
  | .error _ => (fs, [.getInfo videoUrl, .logError])
  | .ok info =>
    let videoTitle := sanitize info.title
    let videoAuthor := sanitize info.author
    let videoId := info.videoId
    let transcriptPath := transcriptPathFor videoTitle videoAuthor
    if pathExists fs transcriptPath then
      (fs, [.getInfo videoUrl])
    else
      match downloadAudio env fs videoUrl with
      | .error (_, fs1, ev1) => (fs1, .getInfo videoUrl :: ev1 ++ [.logError])
      | .ok (fs1, ev1, dl) =>
        match svc with
        | .openai =>
          match splitAudio env fs1 dl.audioPath videoTitle videoId 25 with
          | .error (_, fs2, ev2) =>
            (fs2, .getInfo videoUrl :: ev1 ++ ev2 ++ [.logError])
          | .ok (fs2, ev2, chunks) =>
            let fullTranscript := buildFullTranscript (openaiChunkTexts env chunks)
            let fs3 := writeFS fs2 transcriptPath (jsTrim fullTranscript)
            let fs4 := removeDirFS fs3 (chunkDirFor videoTitle videoId)
            (fs4, .getInfo videoUrl :: ev1 ++ ev2 ++ openaiChunkEvents env chunks ++
                  [.fileWrite transcriptPath, .dirRemove (chunkDirFor videoTitle videoId)])
        | .assemblyai =>
          let t := (transcribeAudio env .assemblyai dl.audioPath).1
          let fs3 := writeFS fs1 transcriptPath (jsTrim t)
          let fs4 := removeDirFS fs3 (chunkDirFor videoTitle videoId)
          (fs4, .getInfo videoUrl :: ev1 ++
                [.apiTranscribe dl.audioPath, .fileWrite transcriptPath,
                 .dirRemove (chunkDirFor videoTitle videoId)])

/-- The batch over the configured url list. Per-job pipelines touch disjoint
paths (per §5 of the spec), so the pool run is observationally a fold of
`processVideo` over the list; only the resulting filesystem is kept. -/
def runBatch (env : Env) (svc : Service) (fs : FS) (urls : List JSStr) : FS :=
  urls.foldl (fun a u => (processVideo env svc a u).1) fs

/-- Auxiliary form of the assembly loop's output: each non-empty text followed
by one space, empties contributing nothing. -/
def joinTrail : List JSStr → JSStr
  | [] => []
  | t :: ts => (if t = [] then [] else t ++ [' ']) ++ joinTrail ts

/-- Modelled from the spec: the fixed-size concurrency pool (`p-limit`, an
external dependency whose implementation is not under `src/`). A pool state
holds the queued jobs in submission order, the jobs whose pipeline is
currently in flight, and the finished jobs. -/
structure PoolState where
  pending : List Nat
  running : List Nat
  done : List Nat
deriving DecidableEq

/-- Modelled from the spec: one scheduler transition of the pool with
concurrency ceiling `K` — a queued job may start only while fewer than `K`
jobs are in flight (so a freed slot is what admits the next queued job), and
any in-flight job may finish, freeing its slot. -/
inductive PoolStep (K : Nat) : PoolState → PoolState → Prop
  | start (j : Nat) (rest : List Nat) (s : PoolState)
      (hcap : s.running.length < K) (hq : s.pending = j :: rest) :
      PoolStep K s ⟨rest, j :: s.running, s.done⟩
  | finish (j : Nat) (l₁ l₂ : List Nat) (s : PoolState)
      (hrun : s.running = l₁ ++ j :: l₂) :
      PoolStep K s ⟨s.pending, l₁ ++ l₂, j :: s.done⟩

/-- The pool's initial state: every job queued, none running, none done. -/
def initPool (jobs : List Nat) : PoolState := ⟨jobs, [], []⟩

/-- `const CONCURRENCY_LIMIT = 3` in `main`. -/
def CONCURRENCY_LIMIT : Nat := 3

/-- `main`'s schedule: one pool job per configured video url. -/
def mainSchedule (urls : List JSStr) : PoolState :=
  initPool (List.range urls.length)

/-- A metadata record used by the concrete test environments. -/
def infoW : VideoInfo := ⟨str "Talk", str "Bob", str "vid01"⟩

/-- A url the concrete test environments resolve successfully. -/
def urlW : JSStr := str "https://y/t1"

/-- A url whose resolution fails in `envBad`. -/
def urlBad : JSStr := str "https://y/bad"

/-- A backend call that fails on every attempt. -/
def failBackend : Nat → Option JSStr := fun _ => none

/-- A concrete environment: resolution succeeds for `urlW`, the artifact is
10 MB (a single segment), both backends succeed. -/
def envW : Env :=
  ⟨fun u => if u = urlW then .ok infoW else .error (str "resolve"),
   fun _ => .ok (str "AUDIO"),
   fun _ => 10 * 1024 * 1024,
   fun _ => [],
   fun _ _ => some (str "hello"),
   fun _ => .ok (some (str "hi"))⟩

/-- Like `envW` but resolution of `urlBad` fails. -/
def envBad : Env :=
  ⟨fun u => if u = urlW then .ok infoW else .error (str "Video unavailable"),
   fun _ => .ok (str "AUDIO"),
   fun _ => 10 * 1024 * 1024,
   fun _ => [],
   fun _ _ => some (str "hello"),
   fun _ => .ok (some (str "hi"))⟩

/-- Like `envW` but the download stream fails. -/
def envDlFail : Env :=
  ⟨fun u => if u = urlW then .ok infoW else .error (str "resolve"),
   fun _ => .error (str "stream reset"),
   fun _ => 10 * 1024 * 1024,
   fun _ => [],
   fun _ _ => some (str "hello"),
   fun _ => .ok (some (str "hi"))⟩

/-- A filesystem in which the canonical transcript for `infoW`'s job exists. -/
def fsC4 : FS := [(transcriptPathFor (str "Talk") (str "Bob"), str "old transcript")]

/-- A filesystem in which the canonical audio artifact for `infoW`'s job exists. -/
def fsC8 : FS := [(audioPathFor (str "Talk") (str "Bob"), str "cached audio")]

/-- The canonical audio path of `infoW`'s job. -/
def outW : JSStr := audioPathFor (str "Talk") (str "Bob")

/-- The download result of `infoW`'s job. -/
def dlW : DownloadResult := ⟨outW, str "Talk", str "Bob"⟩

/-- The filesystem after `downloadAudio` runs for `infoW`'s job on an empty disk. -/
def dlFsW : FS := writeFS [] outW (str "AUDIO")

/-- The trace of that `downloadAudio` run. -/
def dlEvW : List Event := [.getInfo urlW, .download urlW, .fileWrite outW]

/-- A concrete environment for the chunk-ordering counterexamples: a 60 MB
artifact, and the segmenter leaves `chunk-002.mp3`, `chunk-001.mp3`,
`chunk-000.mp3` and a stray `notes.txt` in the chunk directory, in that
readdir order. -/
def envC2 : Env :=
  ⟨fun _ => .ok ⟨str "My Talk", str "Bob", str "a1b2c3"⟩,
   fun _ => .ok (str "AUDIO"),
   fun _ => 60 * 1024 * 1024,
   fun _ => [str "chunk-002.mp3", str "chunk-001.mp3", str "chunk-000.mp3", str "notes.txt"],
   fun _ _ => some (str "hello"),
   fun _ => .ok (some (str "hi"))⟩

/-- A second ordering counterexample environment: an 80 MB artifact whose
segmenter output is read back as `chunk-001.mp3` then `chunk-000.mp3`. -/
def envC5 : Env :=
  ⟨fun _ => .ok ⟨str "Lecture", str "Ann", str "v9x7"⟩,
   fun _ => .ok (str "AUDIO"),
   fun _ => 80 * 1024 * 1024,
   fun _ => [str "chunk-001.mp3", str "chunk-000.mp3"],
   fun _ _ => some (str "hello"),
   fun _ => .ok (some (str "hi"))⟩

/-- The key the claims sort by: the sequence number embedded in the chunk
filename (the first integer literal of the final path component). -/
def filenameSeqNum (p : JSStr) : Nat := firstIntLit (basename p)

/-- The concrete url list used to exercise the pool model. -/
def urls4 : List JSStr := [str "u0", str "u1", str "u2", str "u3"]

/-- The audio path used by the chunk-ordering counterexamples. -/
def audioC2 : JSStr := str "/app/audio/My Talk - Bob.mp3"

/-- The chunk directory of `envC2`'s job (its name contains digits). -/
def dirC2 : JSStr := chunkDirFor (str "My Talk") (str "a1b2c3")

/-- The chunk list `splitAudio` actually returns under `envC2`: readdir order,
because every full path has the directory's `1` as its first integer literal. -/
def chunksC2 : List JSStr :=
  [pjoin dirC2 (str "chunk-002.mp3"), pjoin dirC2 (str "chunk-001.mp3"),
   pjoin dirC2 (str "chunk-000.mp3")]

/-- The audio path used by the `envC5` counterexample. -/
def audioC5 : JSStr := str "/app/audio/Lecture - Ann.mp3"

/-- The chunk directory of `envC5`'s job (its name contains a digit). -/
def dirC5 : JSStr := chunkDirFor (str "Lecture") (str "v9x7")

/-- The chunk list `splitAudio` returns under `envC5`. -/
def chunksC5 : List JSStr :=
  [pjoin dirC5 (str "chunk-001.mp3"), pjoin dirC5 (str "chunk-000.mp3")]

theorem foldl_assembleStep (ts : List JSStr) (acc : JSStr) :
    ts.foldl assembleStep acc = acc ++ joinTrail ts := by
  induction ts generalizing acc with
  | nil => simp [joinTrail]
  | cons t ts ih =>
    simp only [List.foldl_cons, joinTrail, ih, assembleStep]
    by_cases h : t = [] <;> simp [h]

theorem joinTrail_nonEmpty (ts : List JSStr) :
    joinTrail ts = joinTrail (nonEmptyTexts ts) := by
  induction ts with
  | nil => rfl
  | cons t ts ih =>
    by_cases h : t = [] <;>
      simp [joinTrail, nonEmptyTexts, List.filter_cons, h, ih, List.isEmpty_iff]

theorem joinTrail_sepJoin (ts : List JSStr) (h : ∀ t ∈ ts, t ≠ []) (hne : ts ≠ []) :
    joinTrail ts = sepJoin ts ++ [' '] := by
  induction ts with
  | nil => exact absurd rfl hne
  | cons t ts ih =>
    have ht : t ≠ [] := h t (List.mem_cons_self t ts)
    cases ts with
    | nil => simp [joinTrail, sepJoin, ht]
    | cons u us =>
      have ih' := ih (fun x hx => h x (List.mem_cons_of_mem t hx)) (by simp)
      rw [joinTrail, if_neg ht, ih']
      simp [sepJoin, List.append_assoc]

theorem jsTrim_append_space (l : JSStr) : jsTrim (l ++ [' ']) = jsTrim l := by
  induction l with
  | nil => simp [jsTrim, List.dropWhile, isWS]
  | cons c cs ih =>
    have hsp : isWS ' ' = true := rfl
    by_cases h : isWS c
    · simpa [jsTrim, List.dropWhile_cons, h] using ih
    · simp [jsTrim, List.dropWhile_cons, h, List.reverse_append, hsp]

/-- C1: the transcript a job writes for segment texts `t1..tN` equals the
trimmed, single-space join of exactly the non-empty texts, in segment order;
an empty text contributes nothing but does not stop the loop. -/
theorem c1_transcript_is_trimmed_join (ts : List JSStr) :
    jsTrim (buildFullTranscript ts) = jsTrim (sepJoin (nonEmptyTexts ts)) := by
  rw [buildFullTranscript, foldl_assembleStep, List.nil_append, joinTrail_nonEmpty]
  by_cases h : nonEmptyTexts ts = []
  · simp [h, joinTrail, sepJoin]
  · have hmem : ∀ t ∈ nonEmptyTexts ts, t ≠ [] := by
      intro t htm
      have hp := List.of_mem_filter htm
      simpa [List.isEmpty_iff] using hp
    rw [joinTrail_sepJoin _ hmem h, jsTrim_append_space]

theorem openaiAttemptLoop_succ (backend : Nat → Option JSStr) (d attempt m : Nat) :
    openaiAttemptLoop backend d attempt (m + 1) =
      (match backend attempt with
       | some text => ⟨text, 1, [], false⟩
       | none =>
         if m = 0 then ⟨[], 1, [], false⟩
         else
           let r := openaiAttemptLoop backend d (attempt + 1) m
           ⟨r.text, r.calls + 1, d :: r.delays, r.afterLoop⟩ : RetryResult) := rfl

theorem openaiAttemptLoop_allFail (backend : Nat → Option JSStr) (d : Nat)
    (hfail : ∀ a, backend a = none) :
    ∀ n attempt, openaiAttemptLoop backend d attempt n =
      ⟨[], n, List.replicate (n - 1) d, decide (n = 0)⟩ := by
  intro n
  induction n with
  | zero => intro attempt; rfl
  | succ m ih =>
    intro attempt
    rw [openaiAttemptLoop_succ, hfail attempt]
    cases m with
    | zero => rfl
    | succ k =>
      rw [ih (attempt + 1)]
      simp [List.replicate_succ]

/-- C3: with a backend failing on every attempt, the ceiling-constrained
transcription makes exactly `maxRetries` backend calls, waits `retryDelay`
between consecutive attempts (`maxRetries - 1` waits), and resolves with the
empty string — the per-attempt catch makes the function total, so no
exception escapes. -/
theorem c3_retry_bound (backend : Nat → Option JSStr) (maxRetries retryDelay : Nat)
    (hfail : ∀ a, backend a = none) :
    (transcribeWithOpenAI backend maxRetries retryDelay).text = [] ∧
    (transcribeWithOpenAI backend maxRetries retryDelay).calls = maxRetries ∧
    (transcribeWithOpenAI backend maxRetries retryDelay).delays =
      List.replicate (maxRetries - 1) retryDelay := by
  rw [transcribeWithOpenAI, openaiAttemptLoop_allFail backend retryDelay hfail maxRetries 1]
  exact ⟨rfl, rfl, rfl⟩

theorem c3_retry_bound_witness :
    (∀ a, failBackend a = none) ∧
    (transcribeWithOpenAI failBackend 3 5000).text = [] ∧
    (transcribeWithOpenAI failBackend 3 5000).calls = 3 ∧
    (transcribeWithOpenAI failBackend 3 5000).delays = List.replicate 2 5000 :=
  ⟨fun _ => rfl, c3_retry_bound failBackend 3 5000 (fun _ => rfl)⟩

theorem openaiAttemptLoop_no_fallthrough (backend : Nat → Option JSStr) (d : Nat) :
    ∀ n attempt, 1 ≤ n → (openaiAttemptLoop backend d attempt n).afterLoop = false := by
  intro n
  induction n with
  | zero => intro _ h; omega
  | succ m ih =>
    intro attempt _
    rw [openaiAttemptLoop_succ]
    cases hb : backend attempt with
    | some t => rfl
    | none =>
      cases m with
      | zero => rfl
      | succ k =>
        have hrec := ih (attempt + 1) (by omega)
        simp [hrec]

/-- C10: for any backend and any `maxRetries ≥ 1`, the retry loop returns from
inside the loop (success or final failed attempt); the trailing `return ""`
after the loop is never reached. -/
theorem c10_trailing_return_unreachable (backend : Nat → Option JSStr)
    (maxRetries retryDelay : Nat) (h : 1 ≤ maxRetries) :
    (transcribeWithOpenAI backend maxRetries retryDelay).afterLoop = false :=
  openaiAttemptLoop_no_fallthrough backend retryDelay maxRetries 1 h

theorem c10_trailing_return_unreachable_witness :
    1 ≤ 3 ∧ (transcribeWithOpenAI failBackend 3 5000).afterLoop = false :=
  ⟨by decide, c10_trailing_return_unreachable failBackend 3 5000 (by decide)⟩

theorem insAsc_perm (key : α → Nat) (x : α) (l : List α) :
    (insAsc key x l).Perm (x :: l) := by
  induction l with
  | nil => exact List.Perm.refl _
  | cons y ys ih =>
    by_cases h : key y ≤ key x
    · rw [insAsc, if_pos h]
      exact (ih.cons y).trans (List.Perm.swap x y ys)
    · rw [insAsc, if_neg h]

theorem stableSortBy_perm_aux (key : α → Nat) :
    ∀ (l acc : List α), (l.foldl (fun a x => insAsc key x a) acc).Perm (acc ++ l) := by
  intro l
  induction l with
  | nil => intro acc; simp
  | cons x xs ih =>
    intro acc
    have h1 := ih (insAsc key x acc)
    have h2 : (insAsc key x acc ++ xs).Perm ((x :: acc) ++ xs) :=
      (insAsc_perm key x acc).append_right xs
    exact (h1.trans h2).trans List.perm_middle.symm

theorem stableSortBy_perm (key : α → Nat) (l : List α) :
    (stableSortBy key l).Perm l := by
  simpa using stableSortBy_perm_aux key l []

theorem sortedByKey_cons (key : α → Nat) (a b : α) (t : List α) :
    sortedByKey key (a :: b :: t) = (decide (key a ≤ key b) && sortedByKey key (b :: t)) :=
  rfl

theorem insAsc_sorted (key : α → Nat) (x : α) :
    ∀ l, sortedByKey key l = true → sortedByKey key (insAsc key x l) = true := by
  intro l
  induction l with
  | nil => intro _; rfl
  | cons y ys ih =>
    intro hs
    by_cases hxy : key y ≤ key x
    · rw [insAsc, if_pos hxy]
      cases ys with
      | nil => simp [insAsc, sortedByKey, hxy]
      | cons z zs =>
        have hs' : key y ≤ key z ∧ sortedByKey key (z :: zs) = true := by
          rw [sortedByKey_cons] at hs
          simpa using hs
        by_cases hzx : key z ≤ key x
        · have hins : insAsc key x (z :: zs) = z :: insAsc key x zs := by
            rw [insAsc, if_pos hzx]
          have hrec := ih hs'.2
          rw [hins] at hrec
          rw [hins, sortedByKey_cons]
          simp [hs'.1, hrec]
        · have hins : insAsc key x (z :: zs) = x :: z :: zs := by
            rw [insAsc, if_neg hzx]
          have hxz : key x ≤ key z := by omega
          rw [hins, sortedByKey_cons, sortedByKey_cons]
          simp [hxy, hxz]
          rw [sortedByKey_cons] at hs
          simpa using hs'.2
    · have hins : insAsc key x (y :: ys) = x :: y :: ys := by
        rw [insAsc, if_neg hxy]
      have hxy' : key x ≤ key y := by omega
      rw [hins, sortedByKey_cons]
      simp [hxy', hs]

theorem stableSortBy_sorted_aux (key : α → Nat) :
    ∀ (l acc : List α), sortedByKey key acc = true →
      sortedByKey key (l.foldl (fun a x => insAsc key x a) acc) = true := by
  intro l
  induction l with
  | nil => intro acc h; exact h
  | cons x xs ih =>
    intro acc h
    exact ih (insAsc key x acc) (insAsc_sorted key x acc h)

theorem stableSortBy_sorted (key : α → Nat) (l : List α) :
    sortedByKey key (stableSortBy key l) = true :=
  stableSortBy_sorted_aux key l [] rfl

/-- C2: evaluation of the splitter at a failing input. The comparator extracts
the first integer literal from the full joined path, not from the filename; the
chunk directory name `My Talk-a1b2c3` contains the digit `1`, so every chunk
gets the same key and the stable sort keeps raw readdir order `002, 001, 000`,
which is not ascending in the filename-embedded sequence number. Non-matching
files (`notes.txt`) are excluded, as claimed. -/
theorem c2_sort_uses_path_not_filename :
    splitResultChunks (splitAudio envC2 [] audioC2 (str "My Talk") (str "a1b2c3") 25) =
      some chunksC2 ∧
    sortedByKey filenameSeqNum chunksC2 = false ∧
    chunksC2.all (fun p => matchesChunkPattern (basename p)) = true ∧
    ¬ pjoin dirC2 (str "notes.txt") ∈ chunksC2 := by
  decide

/-- C5 counterexample: a 60 MB artifact (above the 25 MB ceiling) whose chunk
directory contains a digit; the returned segment list is `chunk-001` before
`chunk-000`, so it is not in ascending sequence order as the claim states. -/
theorem c5_order_counterexample :
    1 < ceilDiv (envC5.sizeOf audioC5) (25 * 1024 * 1024) ∧
    splitResultChunks (splitAudio envC5 [] audioC5 (str "Lecture") (str "v9x7") 25) =
      some chunksC5 ∧
    sortedByKey filenameSeqNum chunksC5 = false := by
  decide

/-- C5 (amended): with `ceil(S/C) <= 1` the splitter returns exactly the
single-element list holding the original artifact path, leaving the filesystem
untouched (no new file, no chunk subdirectory, no transcoder run); above the
ceiling it returns a permutation of the transcoder's pattern-matching output
files, sorted ascending by the first integer literal of the full segment path
(which coincides with the filename sequence number only when the chunk
directory path contains no digits). -/
theorem c5_segment_count_and_order :
    (∀ (env : Env) (fs : FS) (filePath videoTitle videoId : JSStr) (chunkSizeMB : Nat),
        0 < chunkSizeMB →
        ceilDiv (env.sizeOf filePath) (chunkSizeMB * 1024 * 1024) ≤ 1 →
        splitAudio env fs filePath videoTitle videoId chunkSizeMB = .ok (fs, [], [filePath])) ∧
    (∀ (env : Env) (fs : FS) (filePath videoTitle videoId : JSStr) (chunkSizeMB : Nat)
        (l : List JSStr),
        1 < ceilDiv (env.sizeOf filePath) (chunkSizeMB * 1024 * 1024) →
        splitResultChunks (splitAudio env fs filePath videoTitle videoId chunkSizeMB) = some l →
        l.Perm (producedChunkPaths env filePath videoTitle videoId) ∧
        sortedByKey firstIntLit l = true) := by
  constructor
  · intro env fs fp t id mb _ hle
    simp [splitAudio, hle]
  · intro env fs fp t id mb l hgt hsome
    have hnle : ¬ ceilDiv (env.sizeOf fp) (mb * 1024 * 1024) ≤ 1 := by omega
    simp only [splitAudio, if_neg hnle] at hsome
    by_cases hcf : stableSortBy firstIntLit (producedChunkPaths env fp t id) = []
    · rw [if_pos hcf] at hsome
      simp [splitResultChunks] at hsome
    · rw [if_neg hcf] at hsome
      simp only [splitResultChunks, Option.some.injEq] at hsome
      subst hsome
      exact ⟨stableSortBy_perm firstIntLit _, stableSortBy_sorted firstIntLit _⟩

theorem c5_segment_count_and_order_witness :
    (0 < 25 ∧ ceilDiv (envW.sizeOf outW) (25 * 1024 * 1024) ≤ 1 ∧
      splitAudio envW [] outW (str "Talk") (str "vid01") 25 = .ok ([], [], [outW])) ∧
    (1 < ceilDiv (envC2.sizeOf audioC2) (25 * 1024 * 1024) ∧
      splitResultChunks (splitAudio envC2 [] audioC2 (str "My Talk") (str "a1b2c3") 25) =
        some chunksC2 ∧
      chunksC2.Perm (producedChunkPaths envC2 audioC2 (str "My Talk") (str "a1b2c3")) ∧
      sortedByKey firstIntLit chunksC2 = true) :=
  ⟨⟨by decide, by decide,
    c5_segment_count_and_order.1 envW [] outW (str "Talk") (str "vid01") 25
      (by decide) (by decide)⟩,
   ⟨by decide, by decide,
    c5_segment_count_and_order.2 envC2 [] audioC2 (str "My Talk") (str "a1b2c3") 25
      chunksC2 (by decide) (by decide)⟩⟩

/-- C4 counterexample: a job whose transcript already exists still performs a
network metadata resolution (`ytdl.getInfo` runs before the skip check), so
the pipeline does not perform zero network work. -/
theorem c4_skip_still_resolves :
    pathExists fsC4 (transcriptPathFor (sanitize infoW.title) (sanitize infoW.author)) = true ∧
    (processVideo envW .openai fsC4 urlW).2.any isNetworkEv = true := by
  decide

/-- C4 (amended): when the canonical transcript already exists, the pipeline
ends as skipped with the filesystem unchanged and no side effect beyond the
initial metadata resolution: no download, no split, no transcription call, no
file created or modified — so a second batch run leaves every such job's
transcript identical and performs only the per-job resolution call. -/
theorem c4_skip_frame (env : Env) (svc : Service) (fs : FS) (url : JSStr)
    (info : VideoInfo) (hinfo : env.info url = .ok info)
    (hex : pathExists fs (transcriptPathFor (sanitize info.title) (sanitize info.author)) = true) :
    processVideo env svc fs url = (fs, [.getInfo url]) := by
  simp [processVideo, hinfo, hex]

theorem c4_skip_frame_witness :
    envW.info urlW = .ok infoW ∧
    pathExists fsC4 (transcriptPathFor (sanitize infoW.title) (sanitize infoW.author)) = true ∧
    processVideo envW .openai fsC4 urlW = (fsC4, [.getInfo urlW]) :=
  ⟨rfl, by decide, c4_skip_frame envW .openai fsC4 urlW infoW rfl (by decide)⟩

theorem downloadAudio_error_fs (env : Env) (fs : FS) (url : JSStr)
    (e : JSError) (fsE : FS) (evE : List Event)
    (h : downloadAudio env fs url = .error (e, fsE, evE)) : fsE = fs := by
  rw [downloadAudio] at h
  cases hi : env.info url with
  | error e0 =>
    rw [hi] at h
    simp only [Except.error.injEq, Prod.mk.injEq] at h
    exact h.2.1.symm
  | ok info =>
    rw [hi] at h
    dsimp only at h
    split at h
    · exact absurd h (by simp)
    · split at h
      · simp only [Except.error.injEq, Prod.mk.injEq] at h
        exact h.2.1.symm
      · exact absurd h (by simp)

/-- C6: a stage exception is caught and logged inside the job's own pipeline
and never reaches the scheduler. A job whose resolution fails leaves the
filesystem untouched (so it produces no transcript file), and inserting such a
job anywhere in the batch leaves the filesystem produced by the other jobs
unchanged; a job whose acquisition stage fails likewise ends, logged, with the
filesystem unchanged. -/
theorem c6_failure_isolation :
    (∀ (env : Env) (svc : Service) (u : JSStr) (e : JSError), env.info u = .error e →
        (∀ fs : FS, processVideo env svc fs u = (fs, [.getInfo u, .logError])) ∧
        (∀ (fs : FS) (us vs : List JSStr),
            runBatch env svc fs (us ++ u :: vs) = runBatch env svc fs (us ++ vs))) ∧
    (∀ (env : Env) (svc : Service) (u : JSStr) (info : VideoInfo) (fs : FS)
        (e : JSError) (fsE : FS) (evE : List Event),
        env.info u = .ok info →
        pathExists fs (transcriptPathFor (sanitize info.title) (sanitize info.author)) = false →
        downloadAudio env fs u = .error (e, fsE, evE) →
        processVideo env svc fs u = (fs, .getInfo u :: evE ++ [.logError])) := by
  constructor
  · intro env svc u e hfail
    have h1 : ∀ fs : FS, processVideo env svc fs u = (fs, [.getInfo u, .logError]) := by
      intro fs
      simp [processVideo, hfail]
    refine ⟨h1, ?_⟩
    intro fs us vs
    simp [runBatch, List.foldl_append, List.foldl_cons, h1]
  · intro env svc u info fs e fsE evE hinfo hnew hdl
    have hfsE := downloadAudio_error_fs env fs u e fsE evE hdl
    subst hfsE
    simp [processVideo, hinfo, hnew, hdl]

theorem c6_failure_isolation_witness :
    (envBad.info urlBad = .error (str "Video unavailable") ∧
      processVideo envBad .openai [] urlBad = ([], [.getInfo urlBad, .logError]) ∧
      runBatch envBad .openai [] ([urlW] ++ urlBad :: []) =
        runBatch envBad .openai [] ([urlW] ++ [])) ∧
    (envDlFail.info urlW = .ok infoW ∧
      pathExists ([] : FS) (transcriptPathFor (sanitize infoW.title) (sanitize infoW.author)) = false ∧
      downloadAudio envDlFail [] urlW =
        .error (str "stream reset", [], [.getInfo urlW, .download urlW]) ∧
      processVideo envDlFail .openai [] urlW =
        ([], .getInfo urlW :: [.getInfo urlW, .download urlW] ++ [.logError])) :=
  ⟨⟨rfl,
    (c6_failure_isolation.1 envBad .openai urlBad (str "Video unavailable") rfl).1 [],
    (c6_failure_isolation.1 envBad .openai urlBad (str "Video unavailable") rfl).2 [] [urlW] []⟩,
   ⟨rfl, by decide, rfl,
    c6_failure_isolation.2 envDlFail .openai urlW infoW [] (str "stream reset") []
      [.getInfo urlW, .download urlW] rfl (by decide) rfl⟩⟩

/-- C8: when a file already exists at the canonical audio path, `downloadAudio`
returns that path unchanged after the metadata resolution alone — no download,
no transcoding, no filesystem change. -/
theorem c8_acquire_cache_hit (env : Env) (fs : FS) (url : JSStr) (info : VideoInfo)
    (hinfo : env.info url = .ok info)
    (hex : pathExists fs (audioPathFor (sanitize info.title) (sanitize info.author)) = true) :
    downloadAudio env fs url = .ok (fs, [.getInfo url],
      ⟨audioPathFor (sanitize info.title) (sanitize info.author),
       sanitize info.title, sanitize info.author⟩) := by
  simp [downloadAudio, hinfo, hex]

theorem c8_acquire_cache_hit_witness :
    envW.info urlW = .ok infoW ∧
    pathExists fsC8 (audioPathFor (sanitize infoW.title) (sanitize infoW.author)) = true ∧
    downloadAudio envW fsC8 urlW = .ok (fsC8, [.getInfo urlW],
      ⟨audioPathFor (sanitize infoW.title) (sanitize infoW.author),
       sanitize infoW.title, sanitize infoW.author⟩) :=
  ⟨rfl, by decide, c8_acquire_cache_hit envW fsC8 urlW infoW rfl (by decide)⟩

theorem downloadAudio_ok_events (env : Env) (fs : FS) (url : JSStr)
    (fs1 : FS) (ev1 : List Event) (dl : DownloadResult)
    (h : downloadAudio env fs url = .ok (fs1, ev1, dl)) :
    ev1.filter isSplitEv = [] ∧ ev1.filter isApiEv = [] := by
  rw [downloadAudio] at h
  cases hi : env.info url with
  | error e =>
    rw [hi] at h
    exact absurd h (by simp)
  | ok info =>
    rw [hi] at h
    dsimp only at h
    split at h
    · simp only [Except.ok.injEq, Prod.mk.injEq] at h
      rw [← h.2.1]
      exact ⟨rfl, rfl⟩
    · split at h
      · exact absurd h (by simp)
      · simp only [Except.ok.injEq, Prod.mk.injEq] at h
        rw [← h.2.1]
        exact ⟨rfl, rfl⟩

/-- C7: with the ceiling-free (AssemblyAI) backend selected, a job that is not
skipped performs no segmentation at all and makes exactly one transcription
call, on the whole downloaded artifact; and a failing ceiling-free call yields
the empty string from that single call, with no retry. -/
theorem c7_ceiling_free_single_call (env : Env) (fs : FS) (url : JSStr) (info : VideoInfo)
    (fs1 : FS) (ev1 : List Event) (dl : DownloadResult)
    (hinfo : env.info url = .ok info)
    (hnew : pathExists fs (transcriptPathFor (sanitize info.title) (sanitize info.author)) = false)
    (hdl : downloadAudio env fs url = .ok (fs1, ev1, dl)) :
    ((processVideo env .assemblyai fs url).2.filter isSplitEv = [] ∧
     (processVideo env .assemblyai fs url).2.filter isApiEv = [.apiTranscribe dl.audioPath]) ∧
    (∀ e : JSError, transcribeWithAssemblyAI (.error e) = ([], 1)) := by
  have hev := downloadAudio_ok_events env fs url fs1 ev1 dl hdl
  have hp : processVideo env .assemblyai fs url =
      (removeDirFS
         (writeFS fs1 (transcriptPathFor (sanitize info.title) (sanitize info.author))
           (jsTrim (transcribeAudio env .assemblyai dl.audioPath).1))
         (chunkDirFor (sanitize info.title) info.videoId),
       .getInfo url :: ev1 ++
         [.apiTranscribe dl.audioPath,
          .fileWrite (transcriptPathFor (sanitize info.title) (sanitize info.author)),
          .dirRemove (chunkDirFor (sanitize info.title) info.videoId)]) := by
    simp [processVideo, hinfo, hnew, hdl]
  rw [hp]
  refine ⟨⟨?_, ?_⟩, fun e => rfl⟩
  · simp [List.filter_append, hev.1, isSplitEv]
  · simp [List.filter_append, hev.2, isApiEv]

theorem c7_ceiling_free_single_call_witness :
    envW.info urlW = .ok infoW ∧
    pathExists ([] : FS) (transcriptPathFor (sanitize infoW.title) (sanitize infoW.author)) = false ∧
    downloadAudio envW [] urlW = .ok (dlFsW, dlEvW, dlW) ∧
    (processVideo envW .assemblyai [] urlW).2.filter isApiEv = [.apiTranscribe dlW.audioPath] :=
  ⟨rfl, by decide, rfl,
   (c7_ceiling_free_single_call envW [] urlW infoW dlFsW dlEvW dlW rfl (by decide) rfl).1.2⟩

theorem pool_running_le (K : Nat) (s s' : PoolState)
    (h : Relation.ReflTransGen (PoolStep K) s s') :
    s.running.length ≤ K → s'.running.length ≤ K := by
  induction h with
  | refl => exact id
  | tail hab hbc ih =>
    intro h0
    have hb := ih h0
    cases hbc with
    | start j rest t hcap hq =>
      simpa using hcap
    | finish j l1 l2 t hrun =>
      rw [hrun] at hb
      simp only [List.length_append, List.length_cons] at hb ⊢
      omega

/-- C9: under the fixed concurrency pool with ceiling `CONCURRENCY_LIMIT`
(3 in `main`), every state reachable from the initial schedule — all jobs
queued, none running — has at most `CONCURRENCY_LIMIT` pipelines in flight;
queued jobs beyond the ceiling can start only through the `start` rule, i.e.
once a slot is free. -/
theorem c9_concurrency_bound (urls : List JSStr) (s : PoolState)
    (h : Relation.ReflTransGen (PoolStep CONCURRENCY_LIMIT) (mainSchedule urls) s) :
    s.running.length ≤ CONCURRENCY_LIMIT :=
  pool_running_le CONCURRENCY_LIMIT (mainSchedule urls) s h
    (by simp [mainSchedule, initPool])

theorem c9_concurrency_bound_witness :
    Relation.ReflTransGen (PoolStep CONCURRENCY_LIMIT) (mainSchedule urls4)
      ⟨[3], [2, 1, 0], []⟩ ∧
    (PoolState.mk [3] [2, 1, 0] []).running.length ≤ CONCURRENCY_LIMIT := by
  have h1 : PoolStep CONCURRENCY_LIMIT (mainSchedule urls4) ⟨[1, 2, 3], [0], []⟩ :=
    PoolStep.start 0 [1, 2, 3] (mainSchedule urls4) (by decide) (by decide)
  have h2 : PoolStep CONCURRENCY_LIMIT ⟨[1, 2, 3], [0], []⟩ ⟨[2, 3], [1, 0], []⟩ :=
    PoolStep.start 1 [2, 3] ⟨[1, 2, 3], [0], []⟩ (by decide) rfl
  have h3 : PoolStep CONCURRENCY_LIMIT ⟨[2, 3], [1, 0], []⟩ ⟨[3], [2, 1, 0], []⟩ :=
    PoolStep.start 2 [3] ⟨[2, 3], [1, 0], []⟩ (by decide) rfl
  have hr : Relation.ReflTransGen (PoolStep CONCURRENCY_LIMIT) (mainSchedule urls4)
      ⟨[3], [2, 1, 0], []⟩ :=
    Relation.ReflTransGen.tail
      (Relation.ReflTransGen.tail (Relation.ReflTransGen.tail Relation.ReflTransGen.refl h1) h2)
      h3
  exact ⟨hr, c9_concurrency_bound urls4 ⟨[3], [2, 1, 0], []⟩ hr⟩
